import Mathlib

/-!
Verification of the pyOMA2 modal-identification engine specification against the
sources `src/pyoma2/algorithm/base.py`, `src/pyoma2/algorithms/fdd.py` and
`src/pyoma2/Example_MSpoSER.py`.

Numbers are embedded as rationals (`ℚ`), complex samples as pairs of rationals
(`Cx`).  A Python algorithm instance is a record of its attributes; `None` is
`Option.none`; an exception raised by a method is an explicit error value,
returned together with the post-state of `self` so that partial mutation before
a raise is observable.  Library functions of the repository that are not under
`src/` (the `pyoma2.functions.fdd` pipeline, the interactive selector, the
PoSER merger) are either taken as explicit function arguments where a claim
treats them as a black box, or modelled from the spec where a claim is about
them; such definitions carry a `Modelled from the spec:` doc comment.
-/

namespace PyOMA2

/-- Complex numbers with rational components, the embedding of the complex
samples appearing in spectral matrices and mode shapes. -/
@[ext]
structure Cx where
  re : ℚ
  im : ℚ
deriving DecidableEq, Repr

namespace Cx

instance : Zero Cx := ⟨⟨0, 0⟩⟩

instance : One Cx := ⟨⟨1, 0⟩⟩

instance : Add Cx := ⟨fun a b => ⟨a.re + b.re, a.im + b.im⟩⟩

instance : Sub Cx := ⟨fun a b => ⟨a.re - b.re, a.im - b.im⟩⟩

instance : Mul Cx := ⟨fun a b => ⟨a.re * b.re - a.im * b.im, a.re * b.im + a.im * b.re⟩⟩

instance : Inhabited Cx := ⟨0⟩

/-- Complex conjugate. -/
def conj (z : Cx) : Cx := ⟨z.re, -z.im⟩

/-- Squared modulus, a rational. -/
def normSq (z : Cx) : ℚ := z.re * z.re + z.im * z.im

@[simp] theorem zero_re : (0 : Cx).re = 0 := rfl

@[simp] theorem zero_im : (0 : Cx).im = 0 := rfl

@[simp] theorem add_re (a b : Cx) : (a + b).re = a.re + b.re := rfl

@[simp] theorem add_im (a b : Cx) : (a + b).im = a.im + b.im := rfl

@[simp] theorem sub_re (a b : Cx) : (a - b).re = a.re - b.re := rfl

@[simp] theorem sub_im (a b : Cx) : (a - b).im = a.im - b.im := rfl

@[simp] theorem mul_re (a b : Cx) : (a * b).re = a.re * b.re - a.im * b.im := rfl

@[simp] theorem mul_im (a b : Cx) : (a * b).im = a.re * b.im + a.im * b.re := rfl

@[simp] theorem conj_re (z : Cx) : (conj z).re = z.re := rfl

@[simp] theorem conj_im (z : Cx) : (conj z).im = -z.im := rfl

theorem normSq_nonneg (z : Cx) : 0 ≤ normSq z := by
  have h1 := mul_self_nonneg z.re
  have h2 := mul_self_nonneg z.im
  unfold normSq
  linarith

theorem normSq_eq_zero_iff (z : Cx) : normSq z = 0 ↔ z = 0 := by
  constructor
  · intro h
    have h1 := mul_self_nonneg z.re
    have h2 := mul_self_nonneg z.im
    have hre : z.re * z.re = 0 := by unfold normSq at h; linarith
    have him : z.im * z.im = 0 := by unfold normSq at h; linarith
    ext
    · exact mul_self_eq_zero.mp hre
    · exact mul_self_eq_zero.mp him
  · rintro rfl
    simp [normSq]

end Cx

/-- The Python exceptions whose identity the claims mention: the `ValueError`
precondition errors of `BaseAlgorithm`, and the errors that untracked `None`
attributes would raise instead (`AttributeError` at an attribute access on
`None`, `TypeError` at arithmetic on `None`, `ZeroDivisionError` at `1 / 0`). -/
inductive PyErr where
  | valueError (msg : String)
  | attributeError
  | typeError
  | zeroDivisionError
deriving DecidableEq, Repr

/-- Run parameters of the FDD algorithm (`FDDRunParams`).  The class itself
lives in `pyoma2.algorithms.data.run_params`, not under `src/`; its fields are
those read and written by `base.py` and `fdd.py`: `nxseg`, `method_SD`, `pov`
for the spectral stage, `sel_freq` and `DF` recorded by `mpe`. -/
structure FDDRunParams where
  nxseg : ℕ := 1024
  method_SD : String := "per"
  pov : ℚ := 1/2
  sel_freq : Option (List ℚ) := none
  DF : ℚ := 1/10
deriving DecidableEq, Repr

/-- Run parameters of the EFDD/FSDD algorithms (`EFDDRunParams`), with the
fields written by `EFDD.mpe` / `EFDD.mpe_from_plot`. -/
structure EFDDRunParams where
  nxseg : ℕ := 1024
  method_SD : String := "per"
  pov : ℚ := 1/2
  sel_freq : Option (List ℚ) := none
  DF1 : ℚ := 1/10
  DF2 : ℚ := 1
  cm : ℕ := 1
  MAClim : ℚ := 17/20
  sppk : ℕ := 3
  npmax : ℕ := 20
deriving DecidableEq, Repr

/-- Result object of the FDD algorithm (`FDDResult`): the spectral fields
`freq`, `Sy`, `S_val`, `S_vec` filled by `run`, and the modal fields `Fn`,
`Phi` filled later by `mpe` (hence optional). -/
structure FDDResult where
  freq : List ℚ
  Sy : List (List (List Cx))
  S_val : List (List ℚ)
  S_vec : List (List (List Cx))
  Fn : Option (List ℚ) := none
  Phi : Option (List (List Cx)) := none
deriving DecidableEq, Repr

/-- Per-mode fit diagnostics stored by the enhanced methods in `forPlot`. -/
abbrev ForPlot := List (List ℚ)

/-- Result object of the EFDD/FSDD algorithms (`EFDDResult`): the FDD fields
plus damping ratios `Xi` and the fit diagnostics `forPlot`. -/
structure EFDDResult where
  freq : List ℚ
  Sy : List (List (List Cx))
  S_val : List (List ℚ)
  S_vec : List (List (List Cx))
  Fn : Option (List ℚ) := none
  Xi : Option (List ℚ) := none
  Phi : Option (List (List Cx)) := none
  forPlot : Option ForPlot := none
deriving DecidableEq, Repr

/-- The mutable attributes of a `BaseAlgorithm` instance
(`src/pyoma2/algorithm/base.py`, class body): `result`, `run_params`, `name`,
and the attributes set by the setup class, `fs`, `dt`, `data`.  The record is
generic over the run-parameter type, the result type and the data type,
mirroring `typing.Generic[T_RunParams, T_Result]`. -/
structure BaseAlg (P R D : Type) where
  result : Option R := none
  run_params : Option P := none
  name : String := ""
  fs : Option ℚ := none
  dt : Option ℚ := none
  data : Option D := none
deriving DecidableEq, Repr

/-- State of an `FDD` (or `FDD_MS`-free single-setup) instance: data is a
channels-by-time rational matrix. -/
abbrev FDDAlg := BaseAlg FDDRunParams FDDResult (List (List ℚ))

/-- State of an `EFDD`/`FSDD` instance. -/
abbrev EFDDAlg := BaseAlg EFDDRunParams EFDDResult (List (List ℚ))

namespace BaseAlg

variable {P R D : Type}

/-- Embedding of `BaseAlgorithm._pre_run` (`base.py` lines 41-51): raises
`ValueError` when `fs` or `data` is unset, then when `run_params` is unset;
returns the raised exception, or `none` when the checks pass. -/
def _pre_run (s : BaseAlg P R D) : Option PyErr :=
  if s.fs.isNone || s.data.isNone then
    some (.valueError (s.name ++
      ": Sampling frequency and data must be set before running the algorithm, use a Setup class to run it"))
  else if s.run_params.isNone then
    some (.valueError (s.name ++
      ": Run parameters must be set before running the algorithm, use a Setup class to run it"))
  else none

/-- Embedding of `BaseAlgorithm.set_result` (`base.py` lines 63-66): replaces
the stored result wholesale and returns `self`. -/
def set_result (r : R) (s : BaseAlg P R D) : BaseAlg P R D :=
  { s with result := some r }

/-- Embedding of `BaseAlgorithm.set_data` (`base.py` lines 82-87).  The body
assigns `data`, then `fs`, then `dt = 1 / fs`; with `fs = 0` the division
raises `ZeroDivisionError` after the first two assignments, so the partially
mutated post-state is returned with the exception.  The fluent `return self`
is the returned post-state. -/
def set_data (d : D) (fsv : ℚ) (s : BaseAlg P R D) : BaseAlg P R D × Option PyErr :=
  let s2 := { s with data := some d, fs := some fsv }
  if fsv = 0 then (s2, some .zeroDivisionError)
  else ({ s2 with dt := some (1 / fsv) }, none)

end BaseAlg

/-- Type of the spectral estimator `pyoma2.functions.fdd.SD_est` (not under
`src/`): from the two channel sets, `dt`, `nxseg`, the method tag and the
overlap fraction it yields the frequency axis and the CSD tensor.  The claims
treat it as a black box, so it is an explicit function argument of `run`. -/
abbrev SDEstFn := List (List ℚ) → List (List ℚ) → ℚ → ℕ → String → ℚ →
  List ℚ × List (List (List Cx))

/-- Type of the multi-setup estimator `pyoma2.functions.fdd.SD_PreGER` (not
under `src/`), a black box for the claims. -/
abbrev SDPreGERFn := List (List (List ℚ)) → ℚ → ℕ → String → ℚ →
  List ℚ × List (List (List Cx))

/-- Type of the numerical factorization primitive inside
`pyoma2.functions.fdd.SD_svalsvec`: for one CSD matrix, the raw list of
(singular value, singular vector) pairs before ordering. -/
abbrev RawFactFn := List (List Cx) → List (ℚ × List Cx)

/-- Type of the basic peak extractor `pyoma2.functions.fdd.FDD_mpe` (not under
`src/`): from `Sval`, `Svec`, `freq`, the selected frequencies and `DF` it
yields the natural frequencies and mode shapes.  A black box for the claims. -/
abbrev FDDMpeFn := List (List ℚ) → List (List (List Cx)) → List ℚ → List ℚ → ℚ →
  List ℚ × List (List Cx)

/-- Type of the enhanced extractor `pyoma2.functions.fdd.EFDD_mpe` (not under
`src/`): from `Sy`, `freq`, `dt`, the selected frequencies, the `method_SD`
tag, the class method tag and the tuning parameters `DF1`, `DF2`, `cm`,
`MAClim`, `sppk`, `npmax` it yields `Fn`, `Xi`, `Phi`, `forPlot`. -/
abbrev EFDDMpeFn := List (List (List Cx)) → List ℚ → ℚ → List ℚ → String → String →
  ℚ → ℚ → ℕ → ℚ → ℕ → ℕ → List ℚ × List ℚ × List (List Cx) × ForPlot

/-- Insertion into a list of (singular value, singular vector) pairs kept in
descending order of the value. -/
def insertDesc (p : ℚ × List Cx) : List (ℚ × List Cx) → List (ℚ × List Cx)
  | [] => [p]
  | q :: t => if q.1 ≤ p.1 then p :: q :: t else q :: insertDesc p t

/-- Insertion sort of (singular value, singular vector) pairs by descending
value. -/
def sortDesc : List (ℚ × List Cx) → List (ℚ × List Cx)
  | [] => []
  | p :: t => insertDesc p (sortDesc t)

/-- Modelled from the spec: `pyoma2.functions.fdd.SD_svalsvec` is not under
`src/`.  Per the spec it factorizes, for every frequency line, the Hermitian
CSD matrix into descending singular values and corresponding singular vectors;
the numerical factorization of one matrix is abstracted as `rawFact`, and the
descending ordering of the value/vector pairs is the explicit sort. -/
def SD_svalsvec (rawFact : RawFactFn) (Sy : List (List (List Cx))) :
    List (List ℚ) × List (List (List Cx)) :=
  let lines := Sy.map fun M => sortDesc (rawFact M)
  (lines.map fun l => l.map Prod.fst, lines.map fun l => l.map Prod.snd)

namespace FDD

/-- Embedding of `FDD.run` (`fdd.py` lines 48-76).  The body does not invoke
`_pre_run`: it starts with `Y = self.data.T` (an `AttributeError` on `None`),
then reads `self.run_params.nxseg` (an `AttributeError` on `None`), then hands
`self.dt` to `SD_est` (a `TypeError` inside the estimator on `None`), and
finally builds the result object from the estimator and decomposition
outputs. -/
def run (sdEst : SDEstFn) (rawFact : RawFactFn) (s : FDDAlg) : Except PyErr FDDResult :=
  match s.data with
  | none => .error .attributeError
  | some d =>
    let Y := d.transpose
    match s.run_params with
    | none => .error .attributeError
    | some p =>
      match s.dt with
      | none => .error .typeError
      | some dt =>
        let fSy := sdEst Y Y dt p.nxseg p.method_SD p.pov
        let sv := SD_svalsvec rawFact fSy.2
        .ok { freq := fSy.1, Sy := fSy.2, S_val := sv.1, S_vec := sv.2 }

/-- Embedding of `FDD.mpe` (`fdd.py` lines 78-114).  `super().mpe` checks the
result-presence precondition first; then `sel_freq` and `DF` are recorded in
the run parameters, the extractor is applied to the stored spectral fields,
and `Fn`, `Phi` are overwritten in the stored result. -/
def mpe (fddMpe : FDDMpeFn) (sel_freq : List ℚ) (DF : ℚ) (s : FDDAlg) :
    FDDAlg × Option PyErr :=
  match s.result with
  | none => (s, some (.valueError "Run algorithm first"))
  | some r =>
    match s.run_params with
    | none => (s, some .attributeError)
    | some p =>
      let p' := { p with sel_freq := some sel_freq, DF := DF }
      let fp := fddMpe r.S_val r.S_vec r.freq sel_freq DF
      ({ s with run_params := some p',
                result := some { r with Fn := some fp.1, Phi := some fp.2 } }, none)

/-- Embedding of `FDD.mpe_from_plot` (`fdd.py` lines 116-157).  The interactive
`SelFromPlot` collaborator (not under `src/`) is modelled, as the spec
prescribes, by the injected already-resolved frequency list `resolved`.  The
base-class guard of `super().mpe_from_plot` runs first (the imported
`pyoma2.algorithms.base` is not under `src/`; its guard is the one of
`base.py`'s `mpe_fromPlot`, which the spec says estimate-interactive shares);
`DF` is recorded in the run parameters but the resolved `sel_freq` is not;
the extractor output overwrites `Fn`, `Phi`. -/
def mpe_from_plot (fddMpe : FDDMpeFn) (resolved : List ℚ)
    (freqlim : Option (ℚ × ℚ)) (DF : ℚ) (s : FDDAlg) : FDDAlg × Option PyErr :=
  match s.result with
  | none => (s, some (.valueError (s.name ++ ":Run algorithm first")))
  | some r =>
    match s.run_params with
    | none => (s, some .attributeError)
    | some p =>
      let p' := { p with DF := DF }
      let sel_freq := resolved
      let fp := fddMpe r.S_val r.S_vec r.freq sel_freq DF
      ({ s with run_params := some p',
                result := some { r with Fn := some fp.1, Phi := some fp.2 } }, none)

end FDD

namespace EFDD

/-- Embedding of `EFDD.mpe` (`fdd.py` lines 224-292).  The body never calls
`super().mpe`: it first stores all tuning parameters in `run_params` (an
`AttributeError` on `None` there), then evaluates `self.result.Sy` (an
`AttributeError` when no result is stored, with the run parameters already
mutated), then hands `self.dt` to the extractor, and finally overwrites `Fn`
(`reshape(-1)` is the identity on the list model), `Xi`, `Phi`, `forPlot`.
`method` is the class attribute tag, `EFDD` or `FSDD`. -/
def mpe (efddMpe : EFDDMpeFn) (method : String) (sel_freq : List ℚ)
    (DF1 : ℚ) (DF2 : ℚ) (cm : ℕ) (MAClim : ℚ) (sppk : ℕ) (npmax : ℕ)
    (s : EFDDAlg) : EFDDAlg × Option PyErr :=
  match s.run_params with
  | none => (s, some .attributeError)
  | some p =>
    let p' := { p with sel_freq := some sel_freq, DF1 := DF1, DF2 := DF2,
                       cm := cm, MAClim := MAClim, sppk := sppk, npmax := npmax }
    let s1 := { s with run_params := some p' }
    match s.result with
    | none => (s1, some .attributeError)
    | some r =>
      match s.dt with
      | none => (s1, some .typeError)
      | some dt =>
        let out := efddMpe r.Sy r.freq dt sel_freq p.method_SD method
          DF1 DF2 cm MAClim sppk npmax
        let r' := { r with Fn := some out.1, Xi := some out.2.1,
                           Phi := some out.2.2.1, forPlot := some out.2.2.2 }
        ({ s1 with result := some r' }, none)

/-- Embedding of `EFDD.mpe_from_plot` (`fdd.py` lines 294-364).  No base-class
guard: the tuning parameters are stored first (`sel_freq` is not recorded),
then the interactive selector runs (modelled by the injected `resolved` list),
then `self.result.Sy` is evaluated (an `AttributeError` when no result is
stored), and the extractor output overwrites `Fn`, `Xi`, `Phi`, `forPlot`. -/
def mpe_from_plot (efddMpe : EFDDMpeFn) (method : String) (resolved : List ℚ)
    (DF1 : ℚ) (DF2 : ℚ) (cm : ℕ) (MAClim : ℚ) (sppk : ℕ) (npmax : ℕ)
    (freqlim : Option (ℚ × ℚ)) (s : EFDDAlg) : EFDDAlg × Option PyErr :=
  match s.run_params with
  | none => (s, some .attributeError)
  | some p =>
    let p' := { p with DF1 := DF1, DF2 := DF2,
                       cm := cm, MAClim := MAClim, sppk := sppk, npmax := npmax }
    let s1 := { s with run_params := some p' }
    let sel_freq := resolved
    match s.result with
    | none => (s1, some .attributeError)
    | some r =>
      match s.dt with
      | none => (s1, some .typeError)
      | some dt =>
        let out := efddMpe r.Sy r.freq dt sel_freq p.method_SD method
          DF1 DF2 cm MAClim sppk npmax
        let r' := { r with Fn := some out.1, Xi := some out.2.1,
                           Phi := some out.2.2.1, forPlot := some out.2.2.2 }
        ({ s1 with result := some r' }, none)

end EFDD

namespace FDD_MS

/-- Embedding of `FDD_MS.run` (`fdd.py` lines 467-496), the multi-setup
variant.  Like `FDD.run` it never invokes `_pre_run`: `Y = self.data` raises
nothing on `None`, `self.run_params.nxseg` raises `AttributeError` on `None`,
and `SD_PreGER` receives `self.data` and `self.fs` directly, failing with a
`TypeError` inside the estimator when either is `None`. -/
def run (sdPreGER : SDPreGERFn) (rawFact : RawFactFn)
    (s : BaseAlg FDDRunParams FDDResult (List (List (List ℚ)))) :
    Except PyErr FDDResult :=
  match s.run_params with
  | none => .error .attributeError
  | some p =>
    match s.data, s.fs with
    | some Y, some fsv =>
      let fSy := sdPreGER Y fsv p.nxseg p.method_SD p.pov
      let sv := SD_svalsvec rawFact fSy.2
      .ok { freq := fSy.1, Sy := fSy.2, S_val := sv.1, S_vec := sv.2 }
    | _, _ => .error .typeError

end FDD_MS

/-- The run-then-store composition of claim C5: `run()` followed by
`set_result` on the same instance, as the setup classes do. -/
def runAndStore (sdEst : SDEstFn) (rawFact : RawFactFn) (s : FDDAlg) :
    Except PyErr FDDAlg :=
  match FDD.run sdEst rawFact s with
  | .ok r => .ok (BaseAlg.set_result r s)
  | .error e => .error e

/-- Hermitian dot product of two complex vectors (conjugate on the first
argument), truncated to the common length. -/
def cdot (x y : List Cx) : Cx := (List.zipWith (fun a b => Cx.conj a * b) x y).sum

/-- Sum of squared moduli of the first vector over the zipped prefix. -/
def sumNormSqFst (x y : List Cx) : ℚ := (List.zipWith (fun a _ => Cx.normSq a) x y).sum

/-- Sum of squared moduli of the second vector over the zipped prefix. -/
def sumNormSqSnd (x y : List Cx) : ℚ := (List.zipWith (fun _ b => Cx.normSq b) x y).sum

/-- Squared alignment error of scaling `x` by `β` against `y`. -/
def alignErr (x y : List Cx) (β : Cx) : ℚ :=
  (List.zipWith (fun a b => Cx.normSq (b - β * a)) x y).sum

/-- Real part of the Hermitian pairing of two complex scalars. -/
def Rdot (u v : Cx) : ℚ := u.re * v.re + u.im * v.im

/-- Modelled from the spec: the single complex least-squares scale factor of
the PoSER merger (`MultiSetup_PoSER.merge_results` is not under `src/`)
aligning the sub-vector `x` to the sub-vector `y`, i.e. the projection
coefficient of `y` onto `x`. -/
def lsScale (x y : List Cx) : Cx :=
  ⟨(cdot x y).re / sumNormSqFst x y, (cdot x y).im / sumNormSqFst x y⟩

theorem normSq_sub_mul (a b β : Cx) :
    Cx.normSq (b - β * a) =
      Cx.normSq b - 2 * Rdot β (Cx.conj a * b) + Cx.normSq β * Cx.normSq a := by
  simp only [Cx.normSq, Rdot, Cx.sub_re, Cx.sub_im, Cx.mul_re, Cx.mul_im,
    Cx.conj_re, Cx.conj_im]
  ring

theorem Rdot_add_right (u v w : Cx) : Rdot u (v + w) = Rdot u v + Rdot u w := by
  simp only [Rdot, Cx.add_re, Cx.add_im]
  ring

theorem Rdot_zero_right (u : Cx) : Rdot u 0 = 0 := by
  simp [Rdot]

/-- Expansion of the alignment error: it is a quadratic in the scale factor
with coefficients the zipped norms and the Hermitian dot product. -/
theorem alignErr_expand (x y : List Cx) (β : Cx) :
    alignErr x y β =
      sumNormSqSnd x y - 2 * Rdot β (cdot x y) + Cx.normSq β * sumNormSqFst x y := by
  induction x generalizing y with
  | nil => simp [alignErr, sumNormSqSnd, sumNormSqFst, cdot, Rdot_zero_right]
  | cons a x ih =>
    cases y with
    | nil => simp [alignErr, sumNormSqSnd, sumNormSqFst, cdot, Rdot_zero_right]
    | cons b y =>
      simp only [alignErr, sumNormSqSnd, sumNormSqFst, cdot, List.zipWith_cons_cons,
        List.sum_cons] at ih ⊢
      rw [Rdot_add_right, normSq_sub_mul, ih]
      ring

theorem sumNormSqFst_nonneg (x y : List Cx) : 0 ≤ sumNormSqFst x y := by
  induction x generalizing y with
  | nil => simp [sumNormSqFst]
  | cons a x ih =>
    cases y with
    | nil => simp [sumNormSqFst]
    | cons b y =>
      simp only [sumNormSqFst, List.zipWith_cons_cons, List.sum_cons] at ih ⊢
      have := Cx.normSq_nonneg a
      have := ih y
      linarith

theorem cdot_eq_zero_of_sumNormSqFst_eq_zero (x y : List Cx)
    (h : sumNormSqFst x y = 0) : cdot x y = 0 := by
  induction x generalizing y with
  | nil => simp [cdot]
  | cons a x ih =>
    cases y with
    | nil => simp [cdot]
    | cons b y =>
      simp only [sumNormSqFst, List.zipWith_cons_cons, List.sum_cons] at h
      have h1 := Cx.normSq_nonneg a
      have h2 := sumNormSqFst_nonneg x y
      have ha : Cx.normSq a = 0 := by
        have : (List.zipWith (fun a _ => Cx.normSq a) x y).sum = sumNormSqFst x y := rfl
        rw [this] at h
        linarith
      have hrest : sumNormSqFst x y = 0 := by
        have : (List.zipWith (fun a _ => Cx.normSq a) x y).sum = sumNormSqFst x y := rfl
        rw [this] at h
        linarith
      have ha0 : a = 0 := (Cx.normSq_eq_zero_iff a).mp ha
      simp only [cdot, List.zipWith_cons_cons, List.sum_cons]
      have : cdot x y = 0 := ih y hrest
      simp only [cdot] at this
      rw [this, ha0]
      ext <;> simp [Cx.conj]

/-- The scale factor of the PoSER merger is a least-squares minimizer: no
complex scalar aligns `x` to `y` with smaller squared error. -/
theorem lsScale_min (x y : List Cx) (β : Cx) :
    alignErr x y (lsScale x y) ≤ alignErr x y β := by
  rcases eq_or_ne (sumNormSqFst x y) 0 with hS | hS
  · have hp := cdot_eq_zero_of_sumNormSqFst_eq_zero x y hS
    rw [alignErr_expand, alignErr_expand, hS, hp]
    simp [Rdot_zero_right]
  · have hpos : 0 < sumNormSqFst x y :=
      lt_of_le_of_ne (sumNormSqFst_nonneg x y) (Ne.symm hS)
    rw [alignErr_expand, alignErr_expand]
    have key : (sumNormSqSnd x y - 2 * Rdot β (cdot x y) + Cx.normSq β * sumNormSqFst x y)
        - (sumNormSqSnd x y - 2 * Rdot (lsScale x y) (cdot x y)
            + Cx.normSq (lsScale x y) * sumNormSqFst x y)
        = ((β.re * sumNormSqFst x y - (cdot x y).re) ^ 2
            + (β.im * sumNormSqFst x y - (cdot x y).im) ^ 2) / sumNormSqFst x y := by
      simp only [lsScale, Rdot, Cx.normSq]
      field_simp
      ring
    have hnn : 0 ≤ ((β.re * sumNormSqFst x y - (cdot x y).re) ^ 2
        + (β.im * sumNormSqFst x y - (cdot x y).im) ^ 2) / sumNormSqFst x y :=
      div_nonneg (by positivity) hpos.le
    linarith

/-- One setup's contribution for one mode in the PoSER merge: the setup's
complex mode-shape vector and the index list of its reference channels. -/
structure SetupMode where
  phi : List Cx
  ref : List ℕ
deriving DecidableEq, Repr

/-- The reference-channel sub-vector of a setup. -/
def refVec (s : SetupMode) : List Cx := s.ref.map fun i => s.phi.getD i 0

/-- The non-reference entries of a setup, in channel order. -/
def nonRefEntries (s : SetupMode) : List Cx :=
  ((List.range s.phi.length).filter fun i => i ∉ s.ref).map fun i => s.phi.getD i 0

/-- Modelled from the spec: `MultiSetup_PoSER.merge_results` is not under
`src/` (only its call site in `Example_MSpoSER.py` is).  Per the spec, for one
mode: the first setup is the master and its full mode-shape vector is the
reference-channel segment of the fused vector; every other setup contributes
its non-reference entries multiplied by the least-squares complex scale factor
aligning that setup's reference sub-vector to the master's, spliced at the
following global channel positions. -/
def merge_results (setups : List SetupMode) : List Cx :=
  match setups with
  | [] => []
  | master :: rest =>
    master.phi ++
      (rest.map fun s =>
        (nonRefEntries s).map fun z => lsScale (refVec s) (refVec master) * z).flatten

/-- A consistent per-setup channel map: distinct reference indices, all within
the setup's channel count. -/
def consistentMap (s : SetupMode) : Prop :=
  s.ref.Nodup ∧ ∀ i ∈ s.ref, i < s.phi.length

instance (s : SetupMode) : Decidable (consistentMap s) := by
  unfold consistentMap
  infer_instance

theorem filter_mem_perm (ref : List ℕ) (n : ℕ) (hnd : ref.Nodup)
    (hlt : ∀ i ∈ ref, i < n) :
    ((List.range n).filter fun i => i ∈ ref).Perm ref := by
  refine (List.perm_ext_iff_of_nodup (List.Nodup.filter _ (List.nodup_range n)) hnd).2 ?_
  intro a
  simp only [List.mem_filter, List.mem_range, decide_eq_true_eq]
  exact ⟨fun h => h.2, fun h => ⟨hlt a h, h⟩⟩

theorem countP_bnot_add {α : Type} (p : α → Bool) (l : List α) :
    List.countP (fun a => !p a) l + List.countP p l = l.length := by
  induction l with
  | nil => simp
  | cons a t ih =>
    by_cases h : p a = true <;> simp [List.countP_cons, h] <;> omega

theorem nonRefEntries_length (s : SetupMode) (h : consistentMap s) :
    (nonRefEntries s).length = s.phi.length - s.ref.length ∧
      s.ref.length ≤ s.phi.length := by
  obtain ⟨hnd, hlt⟩ := h
  have hperm := filter_mem_perm s.ref s.phi.length hnd hlt
  have hmem : ((List.range s.phi.length).filter fun i => i ∈ s.ref).length
      = s.ref.length := hperm.length_eq
  have hsplit := countP_bnot_add (fun i => decide (i ∈ s.ref)) (List.range s.phi.length)
  rw [List.length_range] at hsplit
  have hc1 : (List.countP (fun i => decide (i ∈ s.ref)) (List.range s.phi.length))
      = s.ref.length := by
    rw [List.countP_eq_length_filter]
    exact hmem
  have hc2 : (nonRefEntries s).length
      = List.countP (fun i => !decide (i ∈ s.ref)) (List.range s.phi.length) := by
    unfold nonRefEntries
    rw [List.length_map, List.countP_eq_length_filter]
    congr 1
    apply List.filter_congr
    intro i _
    simp
  constructor
  · rw [hc2]
    omega
  · omega

/-- The classes of `fdd.py` and the base class, as objects whose
`RunParamCls` / `ResultCls` attributes are mutable shared state. -/
inductive PCls where
  | Base | FDD | EFDD | FSDD | FDD_MS | EFDD_MS
deriving DecidableEq, Repr

/-- The run-parameter and result classes that appear as subscript items in
`fdd.py`. -/
inductive PTy where
  | FDDRunParamsT | FDDResultT | EFDDRunParamsT | EFDDResultT
deriving DecidableEq, Repr

/-- The pair of class attributes assigned by `__class_getitem__`. -/
structure ClsAttrs where
  RunParamCls : PTy
  ResultCls : PTy
deriving DecidableEq, Repr

/-- The own (non-inherited) `RunParamCls`/`ResultCls` attributes of each
class. -/
def ClsEnv := PCls → Option ClsAttrs

/-- In-place assignment of the attribute pair of one class. -/
def updateEnv (env : ClsEnv) (c : PCls) (a : ClsAttrs) : ClsEnv :=
  fun c' => if c' = c then some a else env c'

/-- Embedding of `BaseAlgorithm.__class_getitem__` (`base.py` lines 89-93):
evaluating `C[item]` assigns `C.RunParamCls = item[0]` and
`C.ResultCls = item[1]` in place and returns the class object `C` itself,
not a new specialized class. -/
def class_getitem (env : ClsEnv) (c : PCls) (item : PTy × PTy) : ClsEnv × PCls :=
  (updateEnv env c ⟨item.1, item.2⟩, c)

/-- Attribute state before `fdd.py` is imported: `BaseAlgorithm` declares the
two attributes without assigning them. -/
def env0 : ClsEnv := fun _ => none

/-- After `class FDD(BaseAlgorithm[FDDRunParams, FDDResult, ...])`
(`fdd.py` line 27): the subscript mutates the base class, then the class body
assigns `FDD.RunParamCls = FDDRunParams` and `FDD.ResultCls = FDDResult`. -/
def envAfterFDD : ClsEnv :=
  updateEnv (class_getitem env0 .Base (.FDDRunParamsT, .FDDResultT)).1
    .FDD ⟨.FDDRunParamsT, .FDDResultT⟩

/-- After `class EFDD(FDD[EFDDRunParams, EFDDResult, ...])` (`fdd.py` line
197): the subscript mutates `FDD` itself, then the class body assigns EFDD's
own attributes. -/
def envAfterEFDD : ClsEnv :=
  updateEnv (class_getitem envAfterFDD .FDD (.EFDDRunParamsT, .EFDDResultT)).1
    .EFDD ⟨.EFDDRunParamsT, .EFDDResultT⟩

/-- After `class FSDD(EFDD)` (`fdd.py` line 406): no subscript and no own
attribute assignment, only the `method` tag changes. -/
def envAfterFSDD : ClsEnv := envAfterEFDD

/-- After `class FDD_MS(FDD[FDDRunParams, FDDResult, typing.Iterable[dict]])`
(`fdd.py` line 441): the subscript mutates `FDD` again, back to the FDD
types, then the class body assigns FDD_MS's own attributes. -/
def envAfterFDD_MS : ClsEnv :=
  updateEnv (class_getitem envAfterFSDD .FDD (.FDDRunParamsT, .FDDResultT)).1
    .FDD_MS ⟨.FDDRunParamsT, .FDDResultT⟩

/-- After `class EFDD_MS(EFDD[EFDDRunParams, EFDDResult, ...])` (`fdd.py`
line 501), the last class statement of the module: the state of all class
attributes once `fdd.py` has been fully imported. -/
def envFinal : ClsEnv :=
  updateEnv (class_getitem envAfterFDD_MS .EFDD (.EFDDRunParamsT, .EFDDResultT)).1
    .EFDD_MS ⟨.EFDDRunParamsT, .EFDDResultT⟩

/-!  Concrete instances and black-box stubs used by the witnesses. -/

/-- A freshly constructed FDD instance: nothing set. -/
def egFDD : FDDAlg := { name := "FDD" }

/-- A stub spectral estimator, for evaluating the state machinery on concrete
inputs. -/
def stubSDEst : SDEstFn := fun _ _ _ _ _ _ => ([0], [[[⟨1, 0⟩]]])

/-- A stub factorization primitive. -/
def stubRawFact : RawFactFn := fun _ => [(1, [⟨1, 0⟩])]

/-- A stub basic peak extractor. -/
def stubFDDMpe : FDDMpeFn := fun _ _ _ sel _ => (sel, sel.map fun _ => [⟨1, 0⟩])

/-- A stub enhanced extractor. -/
def stubEFDDMpe : EFDDMpeFn := fun _ _ _ sel _ _ _ _ _ _ _ _ =>
  (sel, sel.map fun _ => 0, sel.map fun _ => [⟨1, 0⟩], [])

/-- A configured FDD instance with data bound, ready to run. -/
def egReady : FDDAlg :=
  { name := "FDD", run_params := some {}, fs := some 100, dt := some (1/100),
    data := some [[1, 2], [3, 4]] }

/-- A spectral result as produced by `FDD.run` on `egReady` with the stubs. -/
def egRes : FDDResult :=
  { freq := [0], Sy := [[[⟨1, 0⟩]]], S_val := [[1]], S_vec := [[[⟨1, 0⟩]]] }

/-- `egReady` after running and storing the result. -/
def egStored : FDDAlg := BaseAlg.set_result egRes egReady

/-- An EFDD instance with run parameters and data set but no stored result. -/
def egEFDDNoRes : EFDDAlg :=
  { name := "EFDD", run_params := some {}, fs := some 100, dt := some (1/100),
    data := some [[1, 2], [3, 4]] }

/-- An EFDD spectral result. -/
def egERes : EFDDResult :=
  { freq := [0], Sy := [[[⟨1, 0⟩]]], S_val := [[1]], S_vec := [[[⟨1, 0⟩]]] }

/-- An EFDD instance holding a spectral result. -/
def egEFDDStored : EFDDAlg := { egEFDDNoRes with result := some egERes }

/-!  Claim theorems. -/

/-- C7: for every call `set_data(data, fs)` with `fs ≠ 0`, the instance's
`data` attribute is set to the given array, `fs` to the given sampling
frequency, the derived sampling interval `dt` to exactly `1 / fs`, no
exception is raised, the updated instance is returned for fluent chaining,
and the remaining attributes `result`, `run_params`, `name` are unchanged. -/
theorem C7_set_data {P R D : Type} (d : D) (fsv : ℚ) (s : BaseAlg P R D)
    (h : fsv ≠ 0) :
    BaseAlg.set_data d fsv s
      = ({ s with data := some d, fs := some fsv, dt := some (1 / fsv) }, none) ∧
    (BaseAlg.set_data d fsv s).1.result = s.result ∧
    (BaseAlg.set_data d fsv s).1.run_params = s.run_params ∧
    (BaseAlg.set_data d fsv s).1.name = s.name := by
  refine ⟨?_, ?_, ?_, ?_⟩ <;> simp [BaseAlg.set_data, h]

/-- Witness for C7 at a concrete instance and `fs = 100`. -/
theorem C7_set_data_witness :
    (100 : ℚ) ≠ 0 ∧
    (BaseAlg.set_data [[1, 2], [3, 4]] 100 egFDD
      = ({ egFDD with
             data := some [[1, 2], [3, 4]]
             fs := some 100
             dt := some (1 / 100) }, none) ∧
     (BaseAlg.set_data [[1, 2], [3, 4]] 100 egFDD).1.result = egFDD.result ∧
     (BaseAlg.set_data [[1, 2], [3, 4]] 100 egFDD).1.run_params = egFDD.run_params ∧
     (BaseAlg.set_data [[1, 2], [3, 4]] 100 egFDD).1.name = egFDD.name) :=
  ⟨by norm_num, C7_set_data [[1, 2], [3, 4]] 100 egFDD (by norm_num)⟩

/-- C10: `set_data(data, 0)` raises `ZeroDivisionError` from the unguarded
`dt = 1 / fs`; at the raise, `data` and `fs` have already been reassigned
while `dt` keeps its old value, so a call with `fs = 0` leaves the instance
partially mutated. -/
theorem C10_set_data_zero {P R D : Type} (d : D) (s : BaseAlg P R D) :
    BaseAlg.set_data d 0 s
      = ({ s with data := some d, fs := some 0 }, some .zeroDivisionError) ∧
    (BaseAlg.set_data d 0 s).1.dt = s.dt := by
  constructor <;> simp [BaseAlg.set_data]

/-- C5: running a configured instance a second time and storing the returned
result overwrites the previous `SpectralResult` wholesale: whenever
run-then-store succeeds and produces the stored state, run-then-store applied
to that stored state reproduces it exactly, so the state after two runs equals
the state after one. -/
theorem C5_run_overwrites (sdEst : SDEstFn) (rawFact : RawFactFn) (s s' : FDDAlg)
    (h : runAndStore sdEst rawFact s = .ok s') :
    runAndStore sdEst rawFact s' = .ok s' := by
  obtain ⟨res, rp, nm, fsv, dtv, da⟩ := s
  unfold runAndStore at h ⊢
  cases hrun : FDD.run sdEst rawFact ⟨res, rp, nm, fsv, dtv, da⟩ with
  | error e => rw [hrun] at h; cases h
  | ok r =>
    rw [hrun] at h
    have hs' : BaseAlg.set_result r ⟨res, rp, nm, fsv, dtv, da⟩ = s' := by
      cases h; rfl
    have hrun' : FDD.run sdEst rawFact s' = .ok r := by
      rw [← hs']
      exact hrun
    rw [hrun']
    rw [← hs']
    rfl

/-- Witness for C5: the stubbed pipeline on a configured concrete instance. -/
theorem C5_run_overwrites_witness :
    runAndStore stubSDEst stubRawFact egReady = .ok egStored ∧
    runAndStore stubSDEst stubRawFact egStored = .ok egStored :=
  ⟨by rfl, C5_run_overwrites stubSDEst stubRawFact egReady egStored (by rfl)⟩

/-- C4: on an instance holding a result, every successive `mpe` call replaces
the stored modal parameters with values freshly computed from the selected
frequencies of that call (`Fn`, `Phi` for FDD; `Fn`, `Xi`, `Phi`, `forPlot`
for the enhanced methods) rather than appending to them, and leaves the
spectral fields `freq`, `Sy`, `S_val`, `S_vec` of the stored result
unchanged. -/
theorem C4_mpe_replaces
    (fddMpe : FDDMpeFn) (efddMpe : EFDDMpeFn) (method : String)
    (L1 L2 : List ℚ) (D1 D2 : ℚ)
    (DF1 DF2 : ℚ) (cm : ℕ) (MAClim : ℚ) (sppk npmax : ℕ)
    (DF1' DF2' : ℚ) (cm' : ℕ) (MAClim' : ℚ) (sppk' npmax' : ℕ) (dtv : ℚ)
    (s : FDDAlg) (t : EFDDAlg) (r : FDDResult) (u : EFDDResult)
    (p : FDDRunParams) (q : EFDDRunParams)
    (hr : s.result = some r) (hp : s.run_params = some p)
    (hu : t.result = some u) (hq : t.run_params = some q) (hdt : t.dt = some dtv) :
    (FDD.mpe fddMpe L2 D2 (FDD.mpe fddMpe L1 D1 s).1).1.result
      = some { r with Fn := some (fddMpe r.S_val r.S_vec r.freq L2 D2).1,
                      Phi := some (fddMpe r.S_val r.S_vec r.freq L2 D2).2 } ∧
    (FDD.mpe fddMpe L2 D2 (FDD.mpe fddMpe L1 D1 s).1).1.result
      = (FDD.mpe fddMpe L2 D2 s).1.result ∧
    (EFDD.mpe efddMpe method L2 DF1' DF2' cm' MAClim' sppk' npmax'
        (EFDD.mpe efddMpe method L1 DF1 DF2 cm MAClim sppk npmax t).1).1.result
      = some { u with
          Fn := some (efddMpe u.Sy u.freq dtv L2 q.method_SD method
            DF1' DF2' cm' MAClim' sppk' npmax').1,
          Xi := some (efddMpe u.Sy u.freq dtv L2 q.method_SD method
            DF1' DF2' cm' MAClim' sppk' npmax').2.1,
          Phi := some (efddMpe u.Sy u.freq dtv L2 q.method_SD method
            DF1' DF2' cm' MAClim' sppk' npmax').2.2.1,
          forPlot := some (efddMpe u.Sy u.freq dtv L2 q.method_SD method
            DF1' DF2' cm' MAClim' sppk' npmax').2.2.2 } ∧
    (EFDD.mpe efddMpe method L2 DF1' DF2' cm' MAClim' sppk' npmax'
        (EFDD.mpe efddMpe method L1 DF1 DF2 cm MAClim sppk npmax t).1).1.result
      = (EFDD.mpe efddMpe method L2 DF1' DF2' cm' MAClim' sppk' npmax' t).1.result := by
  obtain ⟨res, rp, nm, fsv, dtv', da⟩ := s
  obtain ⟨tres, trp, tnm, tfsv, tdtv, tda⟩ := t
  cases hr
  cases hp
  cases hu
  cases hq
  cases hdt
  exact ⟨rfl, rfl, rfl, rfl⟩

/-- Witness for C4: concrete stored instances, two successive selections. -/
theorem C4_mpe_replaces_witness :
    (egStored.result = some egRes ∧ egStored.run_params = some {} ∧
     egEFDDStored.result = some egERes ∧ egEFDDStored.run_params = some {} ∧
     egEFDDStored.dt = some (1/100)) ∧
    ((FDD.mpe stubFDDMpe [2] (1/10) (FDD.mpe stubFDDMpe [1] (1/10) egStored).1).1.result
      = some { egRes with
          Fn := some (stubFDDMpe egRes.S_val egRes.S_vec egRes.freq [2] (1/10)).1,
          Phi := some (stubFDDMpe egRes.S_val egRes.S_vec egRes.freq [2] (1/10)).2 } ∧
     (FDD.mpe stubFDDMpe [2] (1/10) (FDD.mpe stubFDDMpe [1] (1/10) egStored).1).1.result
      = (FDD.mpe stubFDDMpe [2] (1/10) egStored).1.result ∧
     (EFDD.mpe stubEFDDMpe "EFDD" [2] (1/10) 1 1 (17/20) 3 20
        (EFDD.mpe stubEFDDMpe "EFDD" [1] (1/10) 1 1 (17/20) 3 20 egEFDDStored).1).1.result
      = some { egERes with
          Fn := some (stubEFDDMpe egERes.Sy egERes.freq (1/100) [2]
            ({} : EFDDRunParams).method_SD "EFDD" (1/10) 1 1 (17/20) 3 20).1,
          Xi := some (stubEFDDMpe egERes.Sy egERes.freq (1/100) [2]
            ({} : EFDDRunParams).method_SD "EFDD" (1/10) 1 1 (17/20) 3 20).2.1,
          Phi := some (stubEFDDMpe egERes.Sy egERes.freq (1/100) [2]
            ({} : EFDDRunParams).method_SD "EFDD" (1/10) 1 1 (17/20) 3 20).2.2.1,
          forPlot := some (stubEFDDMpe egERes.Sy egERes.freq (1/100) [2]
            ({} : EFDDRunParams).method_SD "EFDD" (1/10) 1 1 (17/20) 3 20).2.2.2 } ∧
     (EFDD.mpe stubEFDDMpe "EFDD" [2] (1/10) 1 1 (17/20) 3 20
        (EFDD.mpe stubEFDDMpe "EFDD" [1] (1/10) 1 1 (17/20) 3 20 egEFDDStored).1).1.result
      = (EFDD.mpe stubEFDDMpe "EFDD" [2] (1/10) 1 1 (17/20) 3 20 egEFDDStored).1.result) :=
  ⟨⟨rfl, rfl, rfl, rfl, rfl⟩,
    C4_mpe_replaces stubFDDMpe stubEFDDMpe "EFDD" [1] [2] (1/10) (1/10)
      (1/10) 1 1 (17/20) 3 20 (1/10) 1 1 (17/20) 3 20 (1/100)
      egStored egEFDDStored egRes egERes {} {} rfl rfl rfl rfl rfl⟩

/-- C1 counterexample: on a fresh FDD instance with nothing set, `run()` fails
with the `AttributeError` of evaluating `self.data.T` on `None`, which is not
the precondition `ValueError` that `_pre_run` raises for this instance —
`FDD.run` never invokes `_pre_run`. -/
theorem C1_counterexample :
    FDD.run stubSDEst stubRawFact egFDD = .error .attributeError ∧
    BaseAlg._pre_run egFDD = some (.valueError
      "FDD: Sampling frequency and data must be set before running the algorithm, use a Setup class to run it") ∧
    (Except.error PyErr.attributeError : Except PyErr FDDResult) ≠ .error (.valueError
      "FDD: Sampling frequency and data must be set before running the algorithm, use a Setup class to run it") :=
  ⟨rfl, rfl, fun h => PyErr.noConfusion (Except.error.inj h)⟩

/-- C1 amended: the FDD-family `run()` bodies never invoke `_pre_run`.  With
`data` unset, `FDD.run` fails with the `AttributeError` of `self.data.T`; with
`run_params` unset, with the `AttributeError` of `self.run_params.nxseg`; with
the sampling interval unset, with the `TypeError` inside `SD_est`; `_pre_run`
itself does raise the documented precondition `ValueError` when `fs` or `data`
is missing, but `run` does not call it.  When sampling frequency, data and run
parameters are all set, `run` computes the spectral estimate and the
singular-value decomposition and returns a result holding `freq`, `Sy`,
`S_val`, `S_vec`.  The multi-setup `FDD_MS.run` likewise fails with an
`AttributeError`, not the precondition error, when `run_params` is unset. -/
theorem C1_run_amended :
    (∀ (sdEst : SDEstFn) (rawFact : RawFactFn) (s : FDDAlg),
      s.data = none → FDD.run sdEst rawFact s = .error .attributeError) ∧
    (∀ (sdEst : SDEstFn) (rawFact : RawFactFn) (s : FDDAlg) (d : List (List ℚ)),
      s.data = some d → s.run_params = none →
        FDD.run sdEst rawFact s = .error .attributeError) ∧
    (∀ (sdEst : SDEstFn) (rawFact : RawFactFn) (s : FDDAlg) (d : List (List ℚ))
        (p : FDDRunParams),
      s.data = some d → s.run_params = some p → s.dt = none →
        FDD.run sdEst rawFact s = .error .typeError) ∧
    (∀ (P R D : Type) (s : BaseAlg P R D), s.fs = none ∨ s.data = none →
      BaseAlg._pre_run s = some (.valueError (s.name ++
        ": Sampling frequency and data must be set before running the algorithm, use a Setup class to run it"))) ∧
    (∀ (sdEst : SDEstFn) (rawFact : RawFactFn) (s : FDDAlg) (d : List (List ℚ))
        (p : FDDRunParams) (dtv : ℚ),
      s.data = some d → s.run_params = some p → s.dt = some dtv →
        FDD.run sdEst rawFact s = .ok {
          freq := (sdEst d.transpose d.transpose dtv p.nxseg p.method_SD p.pov).1
          Sy := (sdEst d.transpose d.transpose dtv p.nxseg p.method_SD p.pov).2
          S_val := (SD_svalsvec rawFact
            (sdEst d.transpose d.transpose dtv p.nxseg p.method_SD p.pov).2).1
          S_vec := (SD_svalsvec rawFact
            (sdEst d.transpose d.transpose dtv p.nxseg p.method_SD p.pov).2).2 }) ∧
    (∀ (sdPre : SDPreGERFn) (rawFact : RawFactFn)
        (s : BaseAlg FDDRunParams FDDResult (List (List (List ℚ)))),
      s.run_params = none → FDD_MS.run sdPre rawFact s = .error .attributeError) := by
  refine ⟨?_, ?_, ?_, ?_, ?_, ?_⟩
  · intro sdEst rawFact s hd
    obtain ⟨res, rp, nm, fsv, dtv, da⟩ := s
    cases hd
    rfl
  · intro sdEst rawFact s d hd hp
    obtain ⟨res, rp, nm, fsv, dtv, da⟩ := s
    cases hd
    cases hp
    rfl
  · intro sdEst rawFact s d p hd hp hdt
    obtain ⟨res, rp, nm, fsv, dtv, da⟩ := s
    cases hd
    cases hp
    cases hdt
    rfl
  · intro P R D s hfs
    rcases hfs with h | h <;> simp [BaseAlg._pre_run, h]
  · intro sdEst rawFact s d p dtv hd hp hdt
    obtain ⟨res, rp, nm, fsv, dtv', da⟩ := s
    cases hd
    cases hp
    cases hdt
    rfl
  · intro sdPre rawFact s hp
    obtain ⟨res, rp, nm, fsv, dtv, da⟩ := s
    cases hp
    rfl

/-- Witness for C1 amended: the unset-data failure branch and the fully-set
success branch at concrete instances. -/
theorem C1_run_amended_witness :
    (egFDD.data = none ∧
      FDD.run stubSDEst stubRawFact egFDD = .error .attributeError) ∧
    (egReady.data = some [[1, 2], [3, 4]] ∧ egReady.run_params = some {} ∧
      egReady.dt = some (1/100) ∧
      FDD.run stubSDEst stubRawFact egReady = .ok {
        freq := (stubSDEst ([[1, 2], [3, 4]] : List (List ℚ)).transpose
          ([[1, 2], [3, 4]] : List (List ℚ)).transpose (1/100)
          ({} : FDDRunParams).nxseg ({} : FDDRunParams).method_SD ({} : FDDRunParams).pov).1
        Sy := (stubSDEst ([[1, 2], [3, 4]] : List (List ℚ)).transpose
          ([[1, 2], [3, 4]] : List (List ℚ)).transpose (1/100)
          ({} : FDDRunParams).nxseg ({} : FDDRunParams).method_SD ({} : FDDRunParams).pov).2
        S_val := (SD_svalsvec stubRawFact (stubSDEst ([[1, 2], [3, 4]] : List (List ℚ)).transpose
          ([[1, 2], [3, 4]] : List (List ℚ)).transpose (1/100)
          ({} : FDDRunParams).nxseg ({} : FDDRunParams).method_SD ({} : FDDRunParams).pov).2).1
        S_vec := (SD_svalsvec stubRawFact (stubSDEst ([[1, 2], [3, 4]] : List (List ℚ)).transpose
          ([[1, 2], [3, 4]] : List (List ℚ)).transpose (1/100)
          ({} : FDDRunParams).nxseg ({} : FDDRunParams).method_SD ({} : FDDRunParams).pov).2).2 }) :=
  ⟨⟨rfl, C1_run_amended.1 stubSDEst stubRawFact egFDD rfl⟩,
   ⟨rfl, rfl, rfl,
    C1_run_amended.2.2.2.2.1 stubSDEst stubRawFact egReady [[1, 2], [3, 4]] {} (1/100)
      rfl rfl rfl⟩⟩

/-- C2 counterexample: on an EFDD instance with run parameters set and no
stored result, `EFDD.mpe` fails with an `AttributeError` (at
`self.result.Sy`), not with the precondition `ValueError` containing
"Run algorithm first", and it has already mutated the stored run parameters
before failing. -/
theorem C2_counterexample :
    (EFDD.mpe stubEFDDMpe "EFDD" [1] (1/10) 1 1 (17/20) 3 20 egEFDDNoRes).2
      = some .attributeError ∧
    (some PyErr.attributeError ≠ some (PyErr.valueError "Run algorithm first")) ∧
    (EFDD.mpe stubEFDDMpe "EFDD" [1] (1/10) 1 1 (17/20) 3 20 egEFDDNoRes).1
      ≠ egEFDDNoRes := by
  refine ⟨rfl, fun h => PyErr.noConfusion (Option.some.inj h), ?_⟩
  intro h
  have h2 : (some (some [(1 : ℚ)]) : Option (Option (List ℚ)))
      = some (none : Option (List ℚ)) := by
    calc some (some [(1 : ℚ)])
        = Option.map EFDDRunParams.sel_freq
            (EFDD.mpe stubEFDDMpe "EFDD" [1] (1/10) 1 1 (17/20) 3 20
              egEFDDNoRes).1.run_params := rfl
      _ = Option.map EFDDRunParams.sel_freq egEFDDNoRes.run_params := by rw [h]
      _ = some none := rfl
  simp at h2

/-- C2 amended: `FDD.mpe`, `FDD.mpe_from_plot` (and therefore `FDD_MS`, which
inherits them) do enforce the result-presence precondition: with no stored
result they fail with the `ValueError` "Run algorithm first" (name-prefixed
for the plot variant) and mutate nothing.  `EFDD.mpe` and
`EFDD.mpe_from_plot` (inherited by `FSDD` and `EFDD_MS`) do not call the
base-class guard: with no stored result they store the tuning parameters into
`run_params` first and then fail with an `AttributeError` when dereferencing
the missing result (`mpe` also records the selected frequencies; the plot
variant runs the interactive selector before failing). -/
theorem C2_mpe_guards_amended :
    (∀ (fddMpe : FDDMpeFn) (L : List ℚ) (DF : ℚ) (s : FDDAlg), s.result = none →
      FDD.mpe fddMpe L DF s = (s, some (.valueError "Run algorithm first"))) ∧
    (∀ (fddMpe : FDDMpeFn) (L : List ℚ) (fl : Option (ℚ × ℚ)) (DF : ℚ)
        (s : FDDAlg), s.result = none →
      FDD.mpe_from_plot fddMpe L fl DF s
        = (s, some (.valueError (s.name ++ ":Run algorithm first")))) ∧
    (∀ (efddMpe : EFDDMpeFn) (method : String) (L : List ℚ) (DF1 DF2 : ℚ)
        (cm : ℕ) (MAClim : ℚ) (sppk npmax : ℕ) (t : EFDDAlg) (q : EFDDRunParams),
      t.result = none → t.run_params = some q →
      EFDD.mpe efddMpe method L DF1 DF2 cm MAClim sppk npmax t
        = ({ t with run_params := some { q with
              sel_freq := some L
              DF1 := DF1
              DF2 := DF2
              cm := cm
              MAClim := MAClim
              sppk := sppk
              npmax := npmax } }, some .attributeError)) ∧
    (∀ (efddMpe : EFDDMpeFn) (method : String) (L : List ℚ) (DF1 DF2 : ℚ)
        (cm : ℕ) (MAClim : ℚ) (sppk npmax : ℕ) (fl : Option (ℚ × ℚ))
        (t : EFDDAlg) (q : EFDDRunParams),
      t.result = none → t.run_params = some q →
      EFDD.mpe_from_plot efddMpe method L DF1 DF2 cm MAClim sppk npmax fl t
        = ({ t with run_params := some { q with
              DF1 := DF1
              DF2 := DF2
              cm := cm
              MAClim := MAClim
              sppk := sppk
              npmax := npmax } }, some .attributeError)) := by
  refine ⟨?_, ?_, ?_, ?_⟩
  · intro fddMpe L DF s hr
    obtain ⟨res, rp, nm, fsv, dtv, da⟩ := s
    cases hr
    rfl
  · intro fddMpe L fl DF s hr
    obtain ⟨res, rp, nm, fsv, dtv, da⟩ := s
    cases hr
    rfl
  · intro efddMpe method L DF1 DF2 cm MAClim sppk npmax t q hr hq
    obtain ⟨res, rp, nm, fsv, dtv, da⟩ := t
    cases hr
    cases hq
    rfl
  · intro efddMpe method L DF1 DF2 cm MAClim sppk npmax fl t q hr hq
    obtain ⟨res, rp, nm, fsv, dtv, da⟩ := t
    cases hr
    cases hq
    rfl

/-- Witness for C2 amended: the guarded FDD branch and the unguarded EFDD
branch at concrete instances. -/
theorem C2_mpe_guards_amended_witness :
    (egFDD.result = none ∧
      FDD.mpe stubFDDMpe [1] (1/10) egFDD
        = (egFDD, some (.valueError "Run algorithm first"))) ∧
    (egEFDDNoRes.result = none ∧ egEFDDNoRes.run_params = some {} ∧
      EFDD.mpe stubEFDDMpe "EFDD" [1] (1/10) 1 1 (17/20) 3 20 egEFDDNoRes
        = ({ egEFDDNoRes with run_params := some { ({} : EFDDRunParams) with
              sel_freq := some [1]
              DF1 := 1/10
              DF2 := 1
              cm := 1
              MAClim := 17/20
              sppk := 3
              npmax := 20 } }, some .attributeError)) :=
  ⟨⟨rfl, C2_mpe_guards_amended.1 stubFDDMpe [1] (1/10) egFDD rfl⟩,
   ⟨rfl, rfl, C2_mpe_guards_amended.2.2.1 stubEFDDMpe "EFDD" [1] (1/10) 1 1 (17/20)
      3 20 egEFDDNoRes {} rfl rfl⟩⟩

/-- C3 counterexample: on a concrete instance holding a result,
`mpe_from_plot` resolving the list `[2]` does not leave the instance in the
state of a direct `mpe([2])` call: the direct call records the selected
frequencies into the run parameters, the plot variant does not. -/
theorem C3_counterexample :
    (FDD.mpe_from_plot stubFDDMpe [2] none (1/10) egStored).1
      ≠ (FDD.mpe stubFDDMpe [2] (1/10) egStored).1 := by
  intro h
  have h2 : (some (none : Option (List ℚ)) : Option (Option (List ℚ)))
      = some (some [(2 : ℚ)]) := by
    calc some (none : Option (List ℚ))
        = Option.map FDDRunParams.sel_freq
            (FDD.mpe_from_plot stubFDDMpe [2] none (1/10) egStored).1.run_params := rfl
      _ = Option.map FDDRunParams.sel_freq
            (FDD.mpe stubFDDMpe [2] (1/10) egStored).1.run_params := by rw [h]
      _ = some (some [(2 : ℚ)]) := rfl
  simp at h2

/-- C3 amended: on an instance holding a result, `mpe_from_plot` with resolved
frequency list `L` (including the empty list, which is processed like any
smaller explicit list and raises nothing) stores exactly the modal parameters
that a direct `mpe(L)` call with the same tuning parameters stores, and
records the same tuning parameters — except that `mpe_from_plot` does not
record the resolved `sel_freq` into the run parameters while `mpe` does. -/
theorem C3_from_plot_amended
    (fddMpe : FDDMpeFn) (efddMpe : EFDDMpeFn) (method : String)
    (L : List ℚ) (fl : Option (ℚ × ℚ)) (DF : ℚ)
    (DF1 DF2 : ℚ) (cm : ℕ) (MAClim : ℚ) (sppk npmax : ℕ) (dtv : ℚ)
    (s : FDDAlg) (t : EFDDAlg) (r : FDDResult) (u : EFDDResult)
    (p : FDDRunParams) (q : EFDDRunParams)
    (hr : s.result = some r) (hp : s.run_params = some p)
    (hu : t.result = some u) (hq : t.run_params = some q) (hdt : t.dt = some dtv) :
    (FDD.mpe_from_plot fddMpe L fl DF s).2 = none ∧
    (FDD.mpe fddMpe L DF s).2 = none ∧
    (FDD.mpe_from_plot fddMpe L fl DF s).1.result = (FDD.mpe fddMpe L DF s).1.result ∧
    (FDD.mpe_from_plot fddMpe L fl DF s).1.run_params = some { p with DF := DF } ∧
    (FDD.mpe fddMpe L DF s).1.run_params
      = some { p with sel_freq := some L, DF := DF } ∧
    (EFDD.mpe_from_plot efddMpe method L DF1 DF2 cm MAClim sppk npmax fl t).2 = none ∧
    (EFDD.mpe efddMpe method L DF1 DF2 cm MAClim sppk npmax t).2 = none ∧
    (EFDD.mpe_from_plot efddMpe method L DF1 DF2 cm MAClim sppk npmax fl t).1.result
      = (EFDD.mpe efddMpe method L DF1 DF2 cm MAClim sppk npmax t).1.result ∧
    (EFDD.mpe_from_plot efddMpe method L DF1 DF2 cm MAClim sppk npmax fl t).1.run_params
      = some { q with
          DF1 := DF1
          DF2 := DF2
          cm := cm
          MAClim := MAClim
          sppk := sppk
          npmax := npmax } ∧
    (EFDD.mpe efddMpe method L DF1 DF2 cm MAClim sppk npmax t).1.run_params
      = some { q with
          sel_freq := some L
          DF1 := DF1
          DF2 := DF2
          cm := cm
          MAClim := MAClim
          sppk := sppk
          npmax := npmax } := by
  obtain ⟨res, rp, nm, fsv, dtv', da⟩ := s
  obtain ⟨tres, trp, tnm, tfsv, tdtv, tda⟩ := t
  cases hr
  cases hp
  cases hu
  cases hq
  cases hdt
  exact ⟨rfl, rfl, rfl, rfl, rfl, rfl, rfl, rfl, rfl, rfl⟩

/-- Witness for C3 amended, at concrete stored instances with the empty
resolved list. -/
theorem C3_from_plot_amended_witness :
    (egStored.result = some egRes ∧ egStored.run_params = some {} ∧
     egEFDDStored.result = some egERes ∧ egEFDDStored.run_params = some {} ∧
     egEFDDStored.dt = some (1/100)) ∧
    ((FDD.mpe_from_plot stubFDDMpe [] none (1/10) egStored).2 = none ∧
     (FDD.mpe stubFDDMpe [] (1/10) egStored).2 = none ∧
     (FDD.mpe_from_plot stubFDDMpe [] none (1/10) egStored).1.result
       = (FDD.mpe stubFDDMpe [] (1/10) egStored).1.result ∧
     (FDD.mpe_from_plot stubFDDMpe [] none (1/10) egStored).1.run_params
       = some { ({} : FDDRunParams) with DF := 1/10 } ∧
     (FDD.mpe stubFDDMpe [] (1/10) egStored).1.run_params
       = some { ({} : FDDRunParams) with sel_freq := some [], DF := 1/10 } ∧
     (EFDD.mpe_from_plot stubEFDDMpe "EFDD" [] (1/10) 1 1 (17/20) 3 20 none
        egEFDDStored).2 = none ∧
     (EFDD.mpe stubEFDDMpe "EFDD" [] (1/10) 1 1 (17/20) 3 20 egEFDDStored).2 = none ∧
     (EFDD.mpe_from_plot stubEFDDMpe "EFDD" [] (1/10) 1 1 (17/20) 3 20 none
        egEFDDStored).1.result
       = (EFDD.mpe stubEFDDMpe "EFDD" [] (1/10) 1 1 (17/20) 3 20 egEFDDStored).1.result ∧
     (EFDD.mpe_from_plot stubEFDDMpe "EFDD" [] (1/10) 1 1 (17/20) 3 20 none
        egEFDDStored).1.run_params
       = some { ({} : EFDDRunParams) with
           DF1 := 1/10
           DF2 := 1
           cm := 1
           MAClim := 17/20
           sppk := 3
           npmax := 20 } ∧
     (EFDD.mpe stubEFDDMpe "EFDD" [] (1/10) 1 1 (17/20) 3 20 egEFDDStored).1.run_params
       = some { ({} : EFDDRunParams) with
           sel_freq := some []
           DF1 := 1/10
           DF2 := 1
           cm := 1
           MAClim := 17/20
           sppk := 3
           npmax := 20 }) :=
  ⟨⟨rfl, rfl, rfl, rfl, rfl⟩,
   C3_from_plot_amended stubFDDMpe stubEFDDMpe "EFDD" [] none (1/10)
     (1/10) 1 1 (17/20) 3 20 (1/100) egStored egEFDDStored egRes egERes {} {}
     rfl rfl rfl rfl rfl⟩

theorem insertDesc_perm (p : ℚ × List Cx) (l : List (ℚ × List Cx)) :
    (insertDesc p l).Perm (p :: l) := by
  induction l with
  | nil => simp [insertDesc]
  | cons q t ih =>
    by_cases h : q.1 ≤ p.1
    · simp [insertDesc, h]
    · simp only [insertDesc, if_neg h]
      exact (ih.cons q).trans (List.Perm.swap p q t)

theorem insertDesc_sorted (p : ℚ × List Cx) (l : List (ℚ × List Cx))
    (h : (l.map Prod.fst).Sorted (· ≥ ·)) :
    ((insertDesc p l).map Prod.fst).Sorted (· ≥ ·) := by
  induction l with
  | nil => simp [insertDesc]
  | cons q t ih =>
    simp only [List.map_cons, List.sorted_cons] at h
    obtain ⟨hq, ht⟩ := h
    by_cases hc : q.1 ≤ p.1
    · simp only [insertDesc, if_pos hc, List.map_cons, List.sorted_cons]
      refine ⟨?_, hq, ht⟩
      intro b hb
      rcases List.mem_cons.mp hb with rfl | hb
      · exact hc
      · exact le_trans (hq b hb) hc
    · simp only [insertDesc, if_neg hc, List.map_cons, List.sorted_cons]
      refine ⟨?_, ih ht⟩
      intro b hb
      have hb' : b ∈ (p :: t).map Prod.fst := by
        have hperm := (insertDesc_perm p t).map Prod.fst
        exact hperm.mem_iff.mp hb
      rcases List.mem_cons.mp hb' with rfl | hb'
      · exact le_of_not_le hc
      · exact hq b hb'

theorem sortDesc_perm (l : List (ℚ × List Cx)) : (sortDesc l).Perm l := by
  induction l with
  | nil => simp [sortDesc]
  | cons p t ih => exact (insertDesc_perm p (sortDesc t)).trans (ih.cons p)

theorem sortDesc_sorted (l : List (ℚ × List Cx)) :
    ((sortDesc l).map Prod.fst).Sorted (· ≥ ·) := by
  induction l with
  | nil => simp [sortDesc]
  | cons p t ih => exact insertDesc_sorted p (sortDesc t) ih

theorem zip_map_fst_snd {α β : Type} (l : List (α × β)) :
    (l.map Prod.fst).zip (l.map Prod.snd) = l := by
  induction l with
  | nil => rfl
  | cons p t ih => simp [ih]

/-- C8: at every frequency line of the CSD tensor, the decomposition step
returns the singular values sorted in descending order, paired with their
corresponding singular vectors (the value/vector pairs of the output are a
permutation of the raw factorization's pairs), and the head of each line
bounds every value of the line, so the top singular value per line forms the
primary modal indicator curve. -/
theorem C8_svalsvec_sorted (rawFact : RawFactFn) (Sy : List (List (List Cx)))
    (k : ℕ) (hk : k < Sy.length) :
    (SD_svalsvec rawFact Sy).1.length = Sy.length ∧
    (SD_svalsvec rawFact Sy).2.length = Sy.length ∧
    ((SD_svalsvec rawFact Sy).1.getD k []).Sorted (· ≥ ·) ∧
    (((SD_svalsvec rawFact Sy).1.getD k []).zip
        ((SD_svalsvec rawFact Sy).2.getD k [])).Perm
      (rawFact (Sy.getD k [])) ∧
    ∀ v ∈ (SD_svalsvec rawFact Sy).1.getD k [], ∀ m,
      ((SD_svalsvec rawFact Sy).1.getD k []).head? = some m → v ≤ m := by
  have hval : (SD_svalsvec rawFact Sy).1
      = Sy.map fun M => (sortDesc (rawFact M)).map Prod.fst := by
    simp [SD_svalsvec, List.map_map]
  have hvec : (SD_svalsvec rawFact Sy).2
      = Sy.map fun M => (sortDesc (rawFact M)).map Prod.snd := by
    simp [SD_svalsvec, List.map_map]
  have hgetval : (SD_svalsvec rawFact Sy).1.getD k []
      = (sortDesc (rawFact (Sy.getD k []))).map Prod.fst := by
    rw [hval]
    rw [List.getD_eq_getElem?_getD, List.getElem?_map,
      List.getElem?_eq_getElem hk, List.getD_eq_getElem?_getD,
      List.getElem?_eq_getElem hk]
    rfl
  have hgetvec : (SD_svalsvec rawFact Sy).2.getD k []
      = (sortDesc (rawFact (Sy.getD k []))).map Prod.snd := by
    rw [hvec]
    rw [List.getD_eq_getElem?_getD, List.getElem?_map,
      List.getElem?_eq_getElem hk, List.getD_eq_getElem?_getD,
      List.getElem?_eq_getElem hk]
    rfl
  refine ⟨by rw [hval]; simp, by rw [hvec]; simp, ?_, ?_, ?_⟩
  · rw [hgetval]
    exact sortDesc_sorted (rawFact (Sy.getD k []))
  · rw [hgetval, hgetvec, zip_map_fst_snd]
    exact sortDesc_perm (rawFact (Sy.getD k []))
  · intro v hv m hm
    rw [hgetval] at hv hm
    have hs := sortDesc_sorted (rawFact (Sy.getD k []))
    cases hL : (sortDesc (rawFact (Sy.getD k []))).map Prod.fst with
    | nil => rw [hL] at hv; cases hv
    | cons a t =>
      rw [hL] at hv hm hs
      simp only [List.head?_cons, Option.some.injEq] at hm
      cases hm
      rcases List.mem_cons.mp hv with rfl | hv
      · exact le_refl v
      · exact (List.sorted_cons.mp hs).1 v hv

/-- An unsorted stub factorization, to exercise the ordering step. -/
def stubRawFact2 : RawFactFn := fun _ => [(1, [⟨1, 0⟩]), (2, [⟨0, 1⟩])]

/-- Witness for C8 on a one-line tensor with an unsorted raw factorization. -/
theorem C8_svalsvec_sorted_witness :
    0 < ([[[(⟨1, 0⟩ : Cx)]]] : List (List (List Cx))).length ∧
    ((SD_svalsvec stubRawFact2 [[[⟨1, 0⟩]]]).1.length
        = ([[[(⟨1, 0⟩ : Cx)]]] : List (List (List Cx))).length ∧
     (SD_svalsvec stubRawFact2 [[[⟨1, 0⟩]]]).2.length
        = ([[[(⟨1, 0⟩ : Cx)]]] : List (List (List Cx))).length ∧
     ((SD_svalsvec stubRawFact2 [[[⟨1, 0⟩]]]).1.getD 0 []).Sorted (· ≥ ·) ∧
     (((SD_svalsvec stubRawFact2 [[[⟨1, 0⟩]]]).1.getD 0 []).zip
        ((SD_svalsvec stubRawFact2 [[[⟨1, 0⟩]]]).2.getD 0 [])).Perm
       (stubRawFact2 (([[[(⟨1, 0⟩ : Cx)]]] : List (List (List Cx))).getD 0 [])) ∧
     ∀ v ∈ (SD_svalsvec stubRawFact2 [[[⟨1, 0⟩]]]).1.getD 0 [], ∀ m,
       ((SD_svalsvec stubRawFact2 [[[⟨1, 0⟩]]]).1.getD 0 []).head? = some m →
         v ≤ m) :=
  ⟨by decide, C8_svalsvec_sorted stubRawFact2 [[[⟨1, 0⟩]]] 0 (by decide)⟩

theorem sum_nonRef_lengths (rest : List SetupMode)
    (h : ∀ s ∈ rest, consistentMap s) :
    (rest.map fun s => (nonRefEntries s).length).sum
      = (rest.map fun s => s.phi.length).sum
        - (rest.map fun s => s.ref.length).sum ∧
    (rest.map fun s => s.ref.length).sum ≤ (rest.map fun s => s.phi.length).sum := by
  induction rest with
  | nil => simp
  | cons a t ih =>
    have ha := nonRefEntries_length a (h a (by simp))
    have ht := ih fun s hs => h s (by simp [hs])
    simp only [List.map_cons, List.sum_cons]
    omega

/-- C6: for equal per-mode inputs with a consistent reference-channel map, the
spec-modelled PoSER merge takes the first setup as master; the fused vector
starts with the master's full mode-shape vector (so its reference-channel
segment equals the master's segment exactly), continues with every other
setup's non-reference entries multiplied by that setup's single complex scale
factor and spliced in setup order, the scale factor is the least-squares
minimizer of the alignment error of the setup's reference sub-vector against
the master's, and the fused length is the sum of all setups' channel counts
minus the duplicated reference channels. -/
theorem C6_poser_fuse (master : SetupMode) (rest : List SetupMode)
    (h : ∀ s ∈ rest, consistentMap s) :
    (merge_results (master :: rest)).length
      = (master.phi.length + (rest.map fun s => s.phi.length).sum)
        - (rest.map fun s => s.ref.length).sum ∧
    (merge_results (master :: rest)).take master.phi.length = master.phi ∧
    (merge_results (master :: rest)).drop master.phi.length
      = (rest.map fun s =>
          (nonRefEntries s).map fun z =>
            lsScale (refVec s) (refVec master) * z).flatten ∧
    ∀ s ∈ rest, ∀ β : Cx,
      alignErr (refVec s) (refVec master) (lsScale (refVec s) (refVec master))
        ≤ alignErr (refVec s) (refVec master) β := by
  obtain ⟨hsum, hle⟩ := sum_nonRef_lengths rest h
  refine ⟨?_, ?_, ?_, ?_⟩
  · show (master.phi ++ _).length = _
    rw [List.length_append, List.length_flatten, List.map_map]
    have : (List.length ∘ fun s =>
        (nonRefEntries s).map fun z => lsScale (refVec s) (refVec master) * z)
        = fun s => (nonRefEntries s).length := by
      funext s
      simp
    rw [this, hsum]
    omega
  · exact List.take_left master.phi _
  · exact List.drop_left master.phi _
  · intro s _ β
    exact lsScale_min (refVec s) (refVec master) β

/-- First setup of the three-setup witness: three shared reference channels
and one extra channel. -/
def egMaster : SetupMode := { phi := [⟨1, 0⟩, ⟨0, 1⟩, ⟨1, 1⟩, ⟨2, 0⟩], ref := [0, 1, 2] }

/-- Second setup of the three-setup witness. -/
def egSet2 : SetupMode := { phi := [⟨2, 0⟩, ⟨0, 2⟩, ⟨2, 2⟩, ⟨3, 0⟩], ref := [0, 1, 2] }

/-- Third setup of the three-setup witness. -/
def egSet3 : SetupMode := { phi := [⟨1, 0⟩, ⟨1, 0⟩, ⟨1, 0⟩, ⟨0, 3⟩], ref := [0, 1, 2] }

/-- Witness for C6: three setups sharing three reference channels, one mode
each, as in the spec's test scenario. -/
theorem C6_poser_fuse_witness :
    (∀ s ∈ [egSet2, egSet3], consistentMap s) ∧
    ((merge_results [egMaster, egSet2, egSet3]).length
      = (egMaster.phi.length + ([egSet2, egSet3].map fun s => s.phi.length).sum)
        - ([egSet2, egSet3].map fun s => s.ref.length).sum ∧
     (merge_results [egMaster, egSet2, egSet3]).take egMaster.phi.length
        = egMaster.phi ∧
     (merge_results [egMaster, egSet2, egSet3]).drop egMaster.phi.length
        = ([egSet2, egSet3].map fun s =>
            (nonRefEntries s).map fun z =>
              lsScale (refVec s) (refVec egMaster) * z).flatten ∧
     ∀ s ∈ [egSet2, egSet3], ∀ β : Cx,
       alignErr (refVec s) (refVec egMaster) (lsScale (refVec s) (refVec egMaster))
         ≤ alignErr (refVec s) (refVec egMaster) β) :=
  ⟨by decide, C6_poser_fuse egMaster [egSet2, egSet3] (by decide)⟩

/-- C9 counterexample: once `fdd.py` is fully imported, `FDD.RunParamCls` and
`FDD.ResultCls` are the FDD types again — the later
`class FDD_MS(FDD[FDDRunParams, FDDResult, ...])` statement re-subscripted
`FDD` — not the EFDD types the claim asserts. -/
theorem C9_counterexample :
    envFinal .FDD = some ⟨.FDDRunParamsT, .FDDResultT⟩ ∧
    (some (ClsAttrs.mk .FDDRunParamsT .FDDResultT)
      ≠ some (ClsAttrs.mk .EFDDRunParamsT .EFDDResultT)) :=
  ⟨rfl, by decide⟩

/-- C9 amended: evaluating `C[item]` on `BaseAlgorithm` or any subclass `C`
returns the very same class object `C` after assigning `C.RunParamCls` and
`C.ResultCls` in place, so the `class EFDD(FDD[...])` statement mutates `FDD`
itself: immediately after it, `FDD`'s attributes are the EFDD types.  However
the later `class FDD_MS(FDD[FDDRunParams, FDDResult, ...])` statement
re-subscripts `FDD` with its original types, so after the whole module is
imported `FDD.RunParamCls` and `FDD.ResultCls` are the FDD types again
(while `EFDD`'s are the EFDD types). -/
theorem C9_class_getitem_amended :
    (∀ (env : ClsEnv) (c : PCls) (item : PTy × PTy),
      (class_getitem env c item).2 = c ∧
      (class_getitem env c item).1 c = some ⟨item.1, item.2⟩) ∧
    envAfterEFDD .FDD = some ⟨.EFDDRunParamsT, .EFDDResultT⟩ ∧
    envFinal .FDD = some ⟨.FDDRunParamsT, .FDDResultT⟩ ∧
    envFinal .EFDD = some ⟨.EFDDRunParamsT, .EFDDResultT⟩ := by
  refine ⟨fun env c item => ⟨rfl, ?_⟩, rfl, rfl, rfl⟩
  simp [class_getitem, updateEnv]

end PyOMA2
